import Mathlib

/-!
Verification development for the WavePulse recording-and-handoff core.

Each definition is a shallow embedding of a function in the repository:
  * `copy_to_buffer_choice`, `copy_to_buffer`, `record_live_stream`
      — src/audio_processor/audio_streamer.py
  * `record_segment` — src/audio_processor/audio_streamer.py
  * `transcribe_audio`, `scribe_listener_polls` — src/audio_processor/scribe.py
      and src/audio_processor/scribe_listener.py
  * `classification_batch_filter`, `finalize_transcript`, `classification_cycle`
      — src/text_processor/classification_listener.py
  * `get_duration`, `handle_window`, `handle_already_started`, `build_slots`,
      `process_schedule_file` — src/audio_processor/radio_scheduler.py
-/

deriving instance DecidableEq for Except

namespace WavePulse

/-- Python `str.endswith`, expressed on the character list of the string
(kernel-reducible, unlike `String.endsWith`, which works on byte
positions). -/
def pyEndsWith (s pat : String) : Bool :=
  pat.data.isSuffixOf s.data

/-! ### Buffer allocator (audio_streamer.copy_to_buffer, lines 118-137)

The buffer directories are modelled as a list of file listings; the live
occupancy counts are the listing lengths, recomputed on every allocation,
exactly as `len(os.listdir(f"{audio_buffer_dir}_{i}"))` does. -/

/-- One step of the selection loop `for i in range(2, no_of_devices + 1)` in
`copy_to_buffer`: `counts` gives the live file count of the 1-indexed
directory, the accumulator is the pair `(temp_folder, min_files)` and the
update fires only on a strict decrease (`if min_files > curr_files`). -/
def chooseLoop (counts : Nat → Nat) : List Nat → Nat × Nat → Nat × Nat
  | [], acc => acc
  | i :: rest, (tempFolder, minFiles) =>
    let curr := counts i
    if minFiles > curr then chooseLoop counts rest (i, curr)
    else chooseLoop counts rest (tempFolder, minFiles)

/-- Index (1-based) of the buffer directory chosen by `copy_to_buffer` for
`n` devices: start from directory 1 and scan directories `2 .. n`. -/
def copy_to_buffer_choice (counts : Nat → Nat) (n : Nat) : Nat :=
  (chooseLoop counts (List.range' 2 (n - 1)) (1, counts 1)).1

/-- Filesystem state seen by the recorder: the durable recordings directory
(`audio_dir`) and the `no_of_devices` buffer directories
(`{audio_buffer_dir}_1 .. _N`, index `i` stored at position `i - 1`). -/
structure BufferState where
  durable : List String
  buffers : List (List String)
deriving DecidableEq, Repr

/-- Live occupancy count of the 1-indexed buffer directory `i`, i.e.
`len(os.listdir(f"{audio_buffer_dir}_{i}"))`. -/
def bufferCount (st : BufferState) (i : Nat) : Nat :=
  (st.buffers.getD (i - 1) []).length

/-- Embedding of `copy_to_buffer`: choose the least-loaded directory (ties to
the lowest index) and `shutil.copy` the file there.  A copy adds the file to
the chosen directory and leaves every other directory and the durable store
untouched. -/
def copy_to_buffer (st : BufferState) (file_name : String) : BufferState :=
  let i := copy_to_buffer_choice (bufferCount st) st.buffers.length
  { st with buffers := st.buffers.set (i - 1) (st.buffers.getD (i - 1) [] ++ [file_name]) }

/-- Embedding of the segment loop of `record_live_stream` (lines 192-221):
each planned segment is `(success?, file_name)`; a successful
`record_segment` writes the file into the durable directory and then
`copy_to_buffer` copies it into one buffer; the first failure aborts the
whole station invocation with `None`. -/
def record_live_stream (st : BufferState) (last : Option String) :
    List (Bool × String) → Option String × BufferState
  | [] => (last, st)
  | (ok, fname) :: rest =>
    if ok then
      let st1 : BufferState := { st with durable := st.durable ++ [fname] }
      let st2 := copy_to_buffer st1 fname
      record_live_stream st2 (some fname) rest
    else (none, st)

/-! ### Station recorder (audio_streamer.record_segment, lines 27-115)

The environment decides how each attempt of the retry loop ends; this is
exactly the case split of the `try`/`except` block:

  * `success`    — the body runs to `return True`;
  * `noSegments` — empty m3u8 playlist, `return False`;
  * `shutdown`   — `config.shared_config["running"]` observed false,
                   `return False`;
  * `interrupt`  — `KeyboardInterrupt`/`SystemExit` caught, `return False`;
  * `timeout`, `connError` — caught, `time.sleep(wait_time)`, next attempt;
  * `otherError` — other `RequestException`, `break` out of the `for`;
                   the function then falls off its end and returns `None`.

The `for ... else` clause returns `False` when all attempts are used up. -/

/-- Possible outcome of one attempt of the retry loop in `record_segment`. -/
inductive AttemptOutcome where
  | success
  | noSegments
  | shutdown
  | interrupt
  | timeout
  | connError
  | otherError
deriving DecidableEq, Repr

/-- Python return value of `record_segment`: `True`, `False`, or the
implicit `None` reached by `break`-ing out of the loop. -/
inductive RecordResult where
  | retTrue
  | retFalse
  | retNone
deriving DecidableEq, Repr

/-- Observable trace of one `record_segment` call: the returned value, the
number of attempts started, and the number of `time.sleep(wait_time)` calls
executed. -/
structure RecordRun where
  result : RecordResult
  attempts : Nat
  sleeps : Nat
deriving DecidableEq, Repr

/-- Retry loop of `record_segment`; `fuel` is the number of loop iterations
still allowed (`retries + 1` at the start), `i` the attempts already made.
Running out of fuel is the `for`/`else` clause returning `False`. -/
def record_segment_loop (env : Nat → AttemptOutcome) : Nat → Nat → Nat → RecordRun
  | 0, i, sleeps => ⟨.retFalse, i, sleeps⟩
  | fuel + 1, i, sleeps =>
    match env i with
    | .success => ⟨.retTrue, i + 1, sleeps⟩
    | .noSegments => ⟨.retFalse, i + 1, sleeps⟩
    | .shutdown => ⟨.retFalse, i + 1, sleeps⟩
    | .interrupt => ⟨.retFalse, i + 1, sleeps⟩
    | .otherError => ⟨.retNone, i + 1, sleeps⟩
    | .timeout => record_segment_loop env fuel (i + 1) (sleeps + 1)
    | .connError => record_segment_loop env fuel (i + 1) (sleeps + 1)

/-- Embedding of `record_segment`: the source first rebinds
`retries = retries + 1` and then runs `for attempt in range(retries)`. -/
def record_segment (retries : Nat) (env : Nat → AttemptOutcome) : RecordRun :=
  record_segment_loop env (retries + 1) 0 0

/-! ### Scribe listener and transcription batch
(scribe_listener.start_scribe_listener, lines 98-153;
scribe.transcribe_audio, lines 92-146)

`flag` is the value of `config.shared_config["running"]` at the successive
points where the code reads it; in `transcribe_audio` it is read once at the
top of the per-file loop, so `flag i` is the read made before file number
`i` (counting from the start of the run-flag trace). -/

/-- Embedding of the per-file loop of `transcribe_audio`: before each file
the run flag is checked and a false value `break`s out, so the remaining
files are neither transcribed nor removed from the buffer.  A processed file
is transcribed and then deleted (`os.remove`).  Returns the transcribed
count and the list of files processed (and deleted). -/
def transcribe_audio (flag : Nat → Bool) : List String → Nat → Nat × List String
  | [], _ => (0, [])
  | f :: rest, i =>
    if flag i then
      let r := transcribe_audio flag rest (i + 1)
      (r.1 + 1, f :: r.2)
    else (0, [])

/-- Number of directory listings (`os.listdir(temp_file_dir)`) performed by
the `while config.shared_config["running"]` loop of `start_scribe_listener`
starting at flag-trace position `t`; `fuel` bounds the iterations observed.
Each iteration whose flag read is true performs exactly one listing; a false
read exits the loop before any listing. -/
def scribe_listener_polls (flag : Nat → Bool) : Nat → Nat → Nat
  | 0, _ => 0
  | fuel + 1, t => if flag t then scribe_listener_polls flag fuel (t + 1) + 1 else 0

/-! ### Classification listener
(classification_listener.classification_listener, lines 124-229;
reformat_and_save, lines 25-107)

Two aspects are embedded: the batch filter that drops non-`.json` entries
from the directory listing (lines 147-150), and the per-file finalization
that writes the classified JSON, the three speaker-labelled text reformats,
and deletes the input (lines 183-221). -/

/-- Python `list.remove`: delete the first occurrence of `y`. -/
def removeFirst : List String → String → List String
  | [], _ => []
  | x :: xs, y => if x = y then xs else x :: removeFirst xs y

/-- CPython semantics of `for file in temp_files: if not
file.endswith(".json"): temp_files.remove(file)` — the loop walks the list
by an internal index `i` that keeps advancing while `remove` shifts later
elements left, so the element after a removed one is never examined.
`fuel` bounds the iterations; `l.length` always suffices because the index
strictly increases and the list never grows. -/
def classification_batch_filter_loop : Nat → List String → Nat → List String
  | 0, l, _ => l
  | fuel + 1, l, i =>
    if h : i < l.length then
      let f := l.get ⟨i, h⟩
      if pyEndsWith f ".json" then classification_batch_filter_loop fuel l (i + 1)
      else classification_batch_filter_loop fuel (removeFirst l f) (i + 1)
    else l

/-- Embedding of the batch filter of `classification_listener`
(lines 147-150). -/
def classification_batch_filter (l : List String) : List String :=
  classification_batch_filter_loop l.length l 0

/-- Output artifacts produced for one transcript by the finalization
stage: the classified JSON (`classified/json`) and the three
speaker-labelled text reformats (`classified/political`,
`classified/political_ad`, `classified/apolitical`). -/
inductive ClsArtifact where
  | jsonOut
  | politicalTxt
  | politicalAdTxt
  | apoliticalTxt
deriving DecidableEq, Repr

/-- On-disk outcome for one input transcript: which artifacts have been
written and whether the input file is still in the unclassified buffer. -/
structure ClsFileState where
  written : List ClsArtifact
  inputPresent : Bool
deriving DecidableEq, Repr

/-- The four artifacts the claim requires to be written atomically. -/
def allArtifacts : List ClsArtifact :=
  [ClsArtifact.jsonOut, ClsArtifact.politicalTxt,
   ClsArtifact.politicalAdTxt, ClsArtifact.apoliticalTxt]

/-- How `reformat_and_save` ends for one file: `ok`, or an exception raised
while decoding the file name / converting the timezone (lines 38-48), which
happens before any text file is opened.  There is no `try`/`except` around
the finalization loop, so such an exception escapes `classification_listener`
(its only handler catches `KeyboardInterrupt`/`SystemExit`). -/
inductive ReformatOutcome where
  | ok
  | nameParseError
deriving DecidableEq, Repr

/-- Embedding of finalization for one classified result (lines 183-221):
`json.dump` writes the classified JSON first; then `reformat_and_save`
writes the three text files; only then is the input removed from the
unclassified buffer.  An exception in `reformat_and_save` escapes with the
JSON already on disk and the input still present. -/
def finalize_transcript (r : ReformatOutcome) : Except ClsFileState ClsFileState :=
  let afterJson : ClsFileState := ⟨[ClsArtifact.jsonOut], true⟩
  match r with
  | .nameParseError => Except.error afterJson
  | .ok => Except.ok ⟨allArtifacts, false⟩

/-- Finalization loop over the batch: files after the first escaping
exception are left untouched (the listener process dies on the uncaught
exception). -/
def finalize_list : List ReformatOutcome → List ClsFileState
  | [] => []
  | r :: rest =>
    match finalize_transcript r with
    | .ok st => st :: finalize_list rest
    | .error st => st :: rest.map (fun _ => ⟨[], true⟩)

/-- One poll cycle of `classification_listener` for a batch: if any
`classify_transcript` future raises, `future.result()` (line 178) raises
before any finalization ran, so every file is untouched; otherwise the batch
is finalized file by file. -/
def classification_cycle (classifyOk : Bool) (rs : List ReformatOutcome) :
    List ClsFileState :=
  if classifyOk then finalize_list rs
  else rs.map (fun _ => ⟨[], true⟩)

/-- The all-or-nothing property C2 asserts for one file: either every
artifact was written and the input deleted, or nothing was written and the
input remains. -/
def allOrNothing (st : ClsFileState) : Prop :=
  (st.written = allArtifacts ∧ st.inputPresent = false) ∨
  (st.written = [] ∧ st.inputPresent = true)

instance (st : ClsFileState) : Decidable (allOrNothing st) := by
  unfold allOrNothing
  infer_instance

/-! ### Schedule compiler (radio_scheduler.py)

Python `datetime` values are embedded at one-second granularity as
(year, month, day, second-of-day); comparison is lexicographic, which
coincides with `datetime` ordering on valid dates.  Times of day from the
schedule (`"HH:MM"` strings parsed by `strptime`) are embedded as
minutes-of-day. -/

/-- Gregorian leap-year rule, as implemented by Python's `datetime`. -/
def isLeap (y : Nat) : Bool :=
  (y % 4 = 0 && y % 100 ≠ 0) || y % 400 = 0

/-- Number of days of month `m` of year `y` (months are 1-indexed). -/
def daysInMonth (y m : Nat) : Nat :=
  if m = 2 then (if isLeap y then 29 else 28)
  else if m = 4 ∨ m = 6 ∨ m = 9 ∨ m = 11 then 30
  else 31

/-- Embedding of a Python `datetime` at one-second granularity:
`sod` is the second of day (`hour * 3600 + minute * 60 + second`). -/
structure PyDateTime where
  year : Nat
  month : Nat
  day : Nat
  sod : Nat
deriving DecidableEq, Repr

/-- Python `datetime` strict comparison `a < b` (lexicographic on
year, month, day, time of day). -/
def dtLt (a b : PyDateTime) : Bool :=
  if a.year < b.year then true
  else if b.year < a.year then false
  else if a.month < b.month then true
  else if b.month < a.month then false
  else if a.day < b.day then true
  else if b.day < a.day then false
  else decide (a.sod < b.sod)

/-- Python `datetime.replace(day=day')`: valid only for
`1 <= day' <= daysInMonth`, otherwise `ValueError` (`none`). -/
def replace_day (d : PyDateTime) (day' : Nat) : Option PyDateTime :=
  if 1 ≤ day' ∧ day' ≤ daysInMonth d.year d.month then
    some ⟨d.year, d.month, day', d.sod⟩
  else none

/-- Python `datetime.replace(month=m', day=d')`: valid only for
`1 <= m' <= 12` and `1 <= d' <= daysInMonth y m'`, otherwise `ValueError`. -/
def replace_month_day (d : PyDateTime) (m' d' : Nat) : Option PyDateTime :=
  if (1 ≤ m' ∧ m' ≤ 12) ∧ (1 ≤ d' ∧ d' ≤ daysInMonth d.year m') then
    some ⟨d.year, m', d', d.sod⟩
  else none

/-- Calendar successor day, keeping the given time of day. -/
def nextDay (d : PyDateTime) (newSod : Nat) : PyDateTime :=
  if d.day + 1 ≤ daysInMonth d.year d.month then ⟨d.year, d.month, d.day + 1, newSod⟩
  else if d.month + 1 ≤ 12 then ⟨d.year, d.month + 1, 1, newSod⟩
  else ⟨d.year + 1, 1, 1, newSod⟩

/-- Python `d + timedelta(seconds=k)` for `k < 86400` (the source only adds
2 minutes, so at most one day boundary is crossed). -/
def addSeconds (d : PyDateTime) (k : Nat) : PyDateTime :=
  if d.sod + k < 86400 then ⟨d.year, d.month, d.day, d.sod + k⟩
  else nextDay d (d.sod + k - 86400)

/-- End-of-window `datetime` computed by `handle_already_started`
(lines 61-72): the end time is placed on today's date; if it is before the
start it is moved to `day + 1`, falling back on `ValueError` to
`(month + 1, day=1)`, whose own `ValueError` (month 13) is uncaught. -/
def end_adjusted (now : PyDateTime) (s e : Nat) : Option PyDateTime :=
  if dtLt ⟨now.year, now.month, now.day, e * 60⟩ ⟨now.year, now.month, now.day, s * 60⟩ then
    match replace_day ⟨now.year, now.month, now.day, e * 60⟩ (now.day + 1) with
    | some x => some x
    | none => replace_month_day ⟨now.year, now.month, now.day, e * 60⟩ (now.month + 1) 1
  else some ⟨now.year, now.month, now.day, e * 60⟩

/-- Embedding of the body of `handle_already_started` for one window
`(s, e)` in minutes-of-day (lines 60-78).  `Except.error` is the uncaught
`ValueError`; on success it returns the new `(start, end)` minute pair —
only the start is ever rewritten, to the `"%H:%M"` rendering of
`now + timedelta(minutes=2)`. -/
def handle_window (now : PyDateTime) (s e : Nat) : Except Unit (Nat × Nat) :=
  match end_adjusted now s e with
  | none => Except.error ()
  | some endd =>
    if dtLt ⟨now.year, now.month, now.day, s * 60⟩ now &&
        dtLt (addSeconds now 120) endd then
      Except.ok ((addSeconds now 120).sod / 60, e)
    else Except.ok (s, e)

/-- One schedule entry: stream URL, state code, callsign, and the list of
`(start, end)` windows in minutes-of-day. -/
structure SchedStation where
  url : String
  state : String
  radio_name : String
  time : List (Nat × Nat)
deriving DecidableEq, Repr

/-- Inner loop of `handle_already_started` over one station's windows;
an uncaught `ValueError` aborts everything. -/
def adjust_times (now : PyDateTime) : List (Nat × Nat) → Except Unit (List (Nat × Nat))
  | [] => Except.ok []
  | (s, e) :: rest => do
    let p ← handle_window now s e
    let ps ← adjust_times now rest
    pure (p :: ps)

/-- Embedding of `handle_already_started` (lines 45-79). -/
def handle_already_started (now : PyDateTime) :
    List SchedStation → Except Unit (List SchedStation)
  | [] => Except.ok []
  | st :: rest => do
    let ts ← adjust_times now st.time
    let sts ← handle_already_started now rest
    pure ({ st with time := ts } :: sts)

/-- Embedding of `get_duration` (lines 21-41) with times in minutes-of-day:
an end before the start wraps past midnight (add one day before
subtracting); the result is in seconds. -/
def get_duration (s e : Nat) : Nat :=
  if e < s then (e + 1440 - s) * 60 else (e - s) * 60

/-- One compiled radio entry of a time slot. -/
structure RadioEntry where
  url : String
  radio_name : String
  duration : Nat
deriving DecidableEq, Repr

/-- One compiled time slot: a start time (minutes-of-day) and the stations
that begin at that time. -/
structure TimeSlot where
  time : Nat
  radio_list : List RadioEntry
deriving DecidableEq, Repr

/-- Append a window's start time to the accumulator if not already present
(`if start_time not in unique_times: unique_times.append(start_time)`). -/
def add_time (acc : List Nat) (se : Nat × Nat) : List Nat :=
  if se.1 ∈ acc then acc else acc ++ [se.1]

/-- Collect one station's start times into the accumulator. -/
def collect_station (acc : List Nat) (st : SchedStation) : List Nat :=
  st.time.foldl add_time acc

/-- All distinct start times in encounter order (lines 144-148). -/
def collect_times (stations : List SchedStation) : List Nat :=
  stations.foldl collect_station []

/-- Distinct start times, ascending (`unique_times.sort()`). -/
def unique_times (stations : List SchedStation) : List Nat :=
  List.insertionSort (· ≤ ·) (collect_times stations)

/-- Entries a single station contributes to the slot at time `t`
(lines 156-165): one entry per window whose start equals `t`, with
radio name `state_radioName` and duration from `get_duration`. -/
def station_entries (t : Nat) (st : SchedStation) : List RadioEntry :=
  st.time.filterMap fun se =>
    if se.1 = t then
      some ⟨st.url, st.state ++ "_" ++ st.radio_name, get_duration se.1 se.2⟩
    else none

/-- Grouping stage of `process_schedule_file` (lines 140-168): one slot per
distinct start time, in sorted order, containing every window starting at
that time. -/
def build_slots (stations : List SchedStation) : List TimeSlot :=
  (unique_times stations).map fun t => ⟨t, stations.flatMap (station_entries t)⟩

/-- Embedding of `process_schedule_file` (lines 82-175): adjust
already-started windows, then group into time slots. -/
def process_schedule_file (now : PyDateTime) (stations : List SchedStation) :
    Except Unit (List TimeSlot) :=
  (handle_already_started now stations).map build_slots

/-! ### Concrete fixtures used by several theorems -/

/-- Buffer directories holding 3, 1 and 2 live files (devices 1, 2, 3). -/
def threeBufferState : BufferState :=
  ⟨["r1"], [["a1", "a2", "a3"], ["b1"], ["c1", "c2"]]⟩

/-- Current time 10:00:00 on 2024-06-10 for the already-started example. -/
def tenAm : PyDateTime := ⟨2024, 6, 10, 36000⟩

/-- Current time 10:00:00 on 2024-12-31: the date whose day-rollover falls
past both the month end and the year end. -/
def decemberNow : PyDateTime := ⟨2024, 12, 31, 36000⟩

/-- A station with the midnight-wrapping window 23:30-00:15. -/
def wrapStation : SchedStation := ⟨"u3", "TX", "KAOX", [(1410, 15)]⟩

/-- Station with window 00:30-01:00 (duration 1800 s). -/
def stationKENI : SchedStation := ⟨"u1", "AK", "KENI", [(30, 60)]⟩

/-- Station with window 00:30-01:30 (duration 3600 s). -/
def stationKFNX : SchedStation := ⟨"u2", "AZ", "KFNX", [(30, 90)]⟩

/-- Midnight on 2024-01-01, a time before every window of the example
schedule, so `handle_already_started` rewrites nothing. -/
def earlyNow : PyDateTime := ⟨2024, 1, 1, 0⟩

/-- The example schedule of the claim: two windows sharing start 00:30 and
one midnight-wrapping window. -/
def exampleSchedule : List SchedStation := [stationKENI, stationKFNX, wrapStation]

/-! ### Claim C1 — load balancing of `copy_to_buffer` -/

/-- Claim C1 (counterexample).  The claim asserts that with live counts
`[3,1,2]` the allocation chooses device 2 and that a repeated call on the
resulting counts `[3,2,2]` chooses device 3.  The first part holds, but the
selection loop of `copy_to_buffer` breaks ties to the lowest index
(`if min_files > curr_files` is strict), so the repeated call chooses
device 2 again, not 3. -/
theorem c1_repeat_allocation_counterexample :
    copy_to_buffer_choice (bufferCount threeBufferState) 3 = 2 ∧
    (copy_to_buffer threeBufferState "seg").buffers.map List.length = [3, 2, 2] ∧
    ¬ copy_to_buffer_choice (bufferCount (copy_to_buffer threeBufferState "seg")) 3 = 3 := by
  decide

/-- Claim C1 (amended).  For live counts `[3,1,2]` the allocation chooses
device index 2 (lowest count); after that allocation completes the counts
are `[3,2,2]` and a repeated allocation call chooses device index 2 again,
because the minimum count 2 is shared by devices 2 and 3 and ties break to
the lowest index. -/
theorem c1_repeat_allocation_amended :
    copy_to_buffer_choice (bufferCount threeBufferState) 3 = 2 ∧
    (copy_to_buffer threeBufferState "seg").buffers.map List.length = [3, 2, 2] ∧
    copy_to_buffer_choice (bufferCount (copy_to_buffer threeBufferState "seg")) 3 = 2 := by
  decide

/-! ### Claim C2 — all-or-nothing finalization in the classification listener -/

/-- Claim C2 (counterexample).  When `reformat_and_save` raises while
decoding the file name (before any text file is opened), the classified
JSON has already been written by line 191-192 and the input file is still in
the unclassified buffer: the file is left half-processed, violating the
claimed all-or-nothing property. -/
theorem c2_atomicity_counterexample :
    finalize_transcript ReformatOutcome.nameParseError =
      Except.error ⟨[ClsArtifact.jsonOut], true⟩ ∧
    ¬ allOrNothing ⟨[ClsArtifact.jsonOut], true⟩ ∧
    classification_cycle true [ReformatOutcome.nameParseError] =
      [⟨[ClsArtifact.jsonOut], true⟩] := by
  decide

/-- Claim C2 (amended).  In one cycle of `classification_listener`: if the
classification batch fails, no artifacts are written and every input
remains; if a file's finalization succeeds, all four artifacts are written
and the input deleted; but a file whose `reformat_and_save` raises is left
with the classified JSON written and the input still present — exactly one
artifact, not all-or-nothing. -/
theorem c2_atomicity_amended (rs : List ReformatOutcome) :
    (∀ st ∈ classification_cycle false rs, st.written = [] ∧ st.inputPresent = true) ∧
    (∀ st ∈ classification_cycle true rs,
      allOrNothing st ∨ (st.written = [ClsArtifact.jsonOut] ∧ st.inputPresent = true)) := by
  constructor
  · intro st hst
    have hc : classification_cycle false rs = rs.map (fun _ => (⟨[], true⟩ : ClsFileState)) := rfl
    rw [hc] at hst
    rcases List.mem_map.mp hst with ⟨r, -, rfl⟩
    exact ⟨rfl, rfl⟩
  · intro st hst
    have hc : classification_cycle true rs = finalize_list rs := rfl
    rw [hc] at hst
    clear hc
    induction rs with
    | nil => simp [finalize_list] at hst
    | cons r rest ih =>
      cases r with
      | ok =>
        simp only [finalize_list, finalize_transcript] at hst
        rcases List.mem_cons.mp hst with rfl | htail
        · exact Or.inl (Or.inl ⟨rfl, rfl⟩)
        · exact ih htail
      | nameParseError =>
        simp only [finalize_list, finalize_transcript] at hst
        rcases List.mem_cons.mp hst with rfl | htail
        · exact Or.inr ⟨rfl, rfl⟩
        · rcases List.mem_map.mp htail with ⟨r', -, rfl⟩
          exact Or.inl (Or.inr ⟨rfl, rfl⟩)

/-- Claim C2 (witness for the amended theorem): a successful file in a
successful cycle has all artifacts written and its input deleted. -/
theorem c2_atomicity_witness :
    allOrNothing ⟨allArtifacts, false⟩ ∨
      (ClsFileState.written ⟨allArtifacts, false⟩ = [ClsArtifact.jsonOut] ∧
        ClsFileState.inputPresent ⟨allArtifacts, false⟩ = true) :=
  (c2_atomicity_amended [ReformatOutcome.ok]).2 ⟨allArtifacts, false⟩ (by decide)

/-! ### Claim C9 — uncaught ValueError on December midnight wrap -/

/-- Claim C9.  For the well-formed window 23:30-00:15 processed on
2024-12-31, the end time precedes the start time, so line 69 calls
`end.replace(day=32)`, which raises `ValueError`; the fallback on line 72
calls `end.replace(month=13, day=1)`, which raises an uncaught `ValueError`,
so the whole schedule fails to process. -/
theorem c9_december_value_error :
    handle_window decemberNow 1410 15 = Except.error () ∧
    handle_already_started decemberNow [wrapStation] = Except.error () ∧
    process_schedule_file decemberNow [wrapStation] = Except.error () := by
  decide

/-! ### Claim C10 — mutation of the listing while iterating over it -/

/-- Claim C10.  The filter `for file in temp_files: if not
file.endswith(".json"): temp_files.remove(file)` skips the element after each
removal, so with two consecutive non-`.json` entries the second one survives
and sits in the selected batch (`temp_files[:n]`, n = 10 by default), where
it is subsequently opened with `json.load`; the loop is therefore not
equivalent to selecting exactly the `.json` files. -/
theorem c10_batch_filter_bug :
    classification_batch_filter ["a.txt", "b.txt", "c.json"] = ["b.txt", "c.json"] ∧
    classification_batch_filter ["a.txt", "b.txt", "c.json"] ≠
      List.filter (fun f => pyEndsWith f ".json") ["a.txt", "b.txt", "c.json"] ∧
    "b.txt" ∈ (classification_batch_filter ["a.txt", "b.txt", "c.json"]).take 10 ∧
    pyEndsWith "b.txt" ".json" = false := by
  decide

/-! ### Claims C3 and C7 — retry behaviour of `record_segment` -/

/-- An attempt that ends in a retryable error (`requests.exceptions.Timeout`
or `ConnectionError`). -/
def isTransient (o : AttemptOutcome) : Prop :=
  o = AttemptOutcome.timeout ∨ o = AttemptOutcome.connError

/-- If every allowed attempt fails transiently, the loop uses all its fuel,
sleeps after each attempt, and the `for`/`else` clause returns `False`. -/
theorem record_segment_loop_exhaust (env : Nat → AttemptOutcome) :
    ∀ fuel i s, (∀ j, j < fuel → isTransient (env (i + j))) →
      record_segment_loop env fuel i s = ⟨RecordResult.retFalse, i + fuel, s + fuel⟩ := by
  intro fuel
  induction fuel with
  | zero => intro i s _; rfl
  | succ f ih =>
    intro i s h
    have h0 : isTransient (env i) := by simpa using h 0 (Nat.succ_pos f)
    have hrest : ∀ j, j < f → isTransient (env (i + 1 + j)) := by
      intro j hj
      have := h (j + 1) (by omega)
      simpa [Nat.add_assoc, Nat.add_comm 1 j] using this
    rcases h0 with h0 | h0 <;>
      simp only [record_segment_loop, h0, ih (i + 1) (s + 1) hrest] <;>
      exact congrArg₂ (RecordRun.mk RecordResult.retFalse) (by omega) (by omega)

/-- If the first `k` attempts fail transiently and attempt `k` (0-based)
raises a non-retryable `RequestException`, the loop `break`s there: the call
makes exactly `k + 1` attempts and falls off the end returning `None`. -/
theorem record_segment_loop_abort (env : Nat → AttemptOutcome) :
    ∀ k fuel i s, k < fuel → (∀ j, j < k → isTransient (env (i + j))) →
      env (i + k) = AttemptOutcome.otherError →
      record_segment_loop env fuel i s = ⟨RecordResult.retNone, i + k + 1, s + k⟩ := by
  intro k
  induction k with
  | zero =>
    intro fuel i s hk _ hk'
    match fuel, hk with
    | f + 1, _ =>
      simp only [Nat.add_zero] at hk'
      simp [record_segment_loop, hk']
  | succ k ih =>
    intro fuel i s hk h h'
    match fuel, hk with
    | f + 1, hk =>
      have h0 : isTransient (env i) := by simpa using h 0 (Nat.succ_pos k)
      have hrest : ∀ j, j < k → isTransient (env (i + 1 + j)) := by
        intro j hj
        have := h (j + 1) (by omega)
        simpa [Nat.add_assoc, Nat.add_comm 1 j] using this
      have h'' : env (i + 1 + k) = AttemptOutcome.otherError := by
        simpa [Nat.add_assoc, Nat.add_comm 1 k] using h'
      rcases h0 with h0 | h0 <;>
        simp only [record_segment_loop, h0, ih (f) (i + 1) (s + 1) (by omega) hrest h''] <;>
        exact congrArg₂ (RecordRun.mk RecordResult.retNone) (by omega) (by omega)

/-- The loop never makes more attempts than it has fuel for. -/
theorem record_segment_loop_attempts (env : Nat → AttemptOutcome) :
    ∀ fuel i s, (record_segment_loop env fuel i s).attempts ≤ i + fuel := by
  intro fuel
  induction fuel with
  | zero => intro i s; simp [record_segment_loop]
  | succ f ih =>
    intro i s
    cases h : env i <;> simp only [record_segment_loop, h] <;>
      first
        | omega
        | · refine le_trans (ih (i + 1) (s + 1)) (by omega)

/-- Claim C7.  `record_segment` makes at most `retries + 1` total attempts;
if every attempt fails with a timeout or connection error it makes exactly
`retries + 1` attempts, sleeps `wait_time` seconds after each of them (so in
particular between consecutive attempts), and returns the unsuccessful
`False`; and if attempt `k` raises any other request error after `k`
transient failures, it aborts immediately with `k + 1` total attempts (the
`break` skips the `for`/`else` and the function returns `None`, a falsy,
unsuccessful value). -/
theorem c7_retry_policy (retries : Nat) (env : Nat → AttemptOutcome) :
    (record_segment retries env).attempts ≤ retries + 1 ∧
    ((∀ j, j < retries + 1 → isTransient (env j)) →
      record_segment retries env =
        ⟨RecordResult.retFalse, retries + 1, retries + 1⟩) ∧
    (∀ k, k < retries + 1 → (∀ j, j < k → isTransient (env j)) →
      env k = AttemptOutcome.otherError →
      record_segment retries env = ⟨RecordResult.retNone, k + 1, k⟩) := by
  refine ⟨?_, ?_, ?_⟩
  · simpa using record_segment_loop_attempts env (retries + 1) 0 0
  · intro h
    simpa using record_segment_loop_exhaust env (retries + 1) 0 0 (by simpa using h)
  · intro k hk h h'
    simpa using record_segment_loop_abort env k (retries + 1) 0 0 hk (by simpa using h)
      (by simpa using h')

/-- Claim C7 (witness): with `retries = 2`, three all-transient attempts
return `False` after three sleeps, and a non-retryable error on the second
attempt aborts after exactly two attempts. -/
theorem c7_retry_policy_witness :
    record_segment 2 (fun _ => AttemptOutcome.timeout) =
      ⟨RecordResult.retFalse, 3, 3⟩ ∧
    record_segment 2 (fun i => if i = 0 then AttemptOutcome.timeout else AttemptOutcome.otherError) =
      ⟨RecordResult.retNone, 2, 1⟩ := by
  refine ⟨(c7_retry_policy 2 _).2.1 (fun j _ => Or.inl rfl), ?_⟩
  refine (c7_retry_policy 2 _).2.2 1 (by omega) ?_ (by decide)
  intro j hj
  have hj0 : j = 0 := by omega
  subst hj0
  exact Or.inl (by decide)

/-- Claim C3 (counterexample).  The claim requires the "stopped" result
returned when RunState is cleared mid-segment to be distinct from the
"failed" result returned on recording failure.  Both paths return the same
Python value `False` (lines 76-80 and the `for`/`else` at lines 113-115),
so at `retries = 1` the two results coincide. -/
theorem c3_graceful_stop_counterexample :
    (record_segment 1 (fun _ => AttemptOutcome.shutdown)).result =
      (record_segment 1 (fun _ => AttemptOutcome.timeout)).result := by
  decide

/-- Claim C3 (amended).  When `config.shared_config["running"]` is observed
false during the first attempt, `record_segment` returns immediately:
`False`, one attempt, no retry, no sleep, and no exception (the return is an
ordinary in-band `return False`).  However this is the same `False` the
function returns after exhausting its retries — not a distinct "stopped"
result. -/
theorem c3_graceful_stop_amended (retries : Nat) (env : Nat → AttemptOutcome)
    (h : env 0 = AttemptOutcome.shutdown) :
    record_segment retries env = ⟨RecordResult.retFalse, 1, 0⟩ ∧
    (record_segment retries env).result =
      (record_segment retries (fun _ => AttemptOutcome.timeout)).result := by
  have h1 : record_segment retries env = ⟨RecordResult.retFalse, 1, 0⟩ := by
    simp [record_segment, record_segment_loop, h]
  refine ⟨h1, ?_⟩
  have h2 := record_segment_loop_exhaust (fun _ => AttemptOutcome.timeout)
    (retries + 1) 0 0 (fun j _ => Or.inl rfl)
  rw [h1, record_segment, h2]

/-- Claim C3 (witness): concrete shutdown mid-segment at `retries = 3`. -/
theorem c3_graceful_stop_witness :
    record_segment 3 (fun _ => AttemptOutcome.shutdown) =
      ⟨RecordResult.retFalse, 1, 0⟩ :=
  (c3_graceful_stop_amended 3 (fun _ => AttemptOutcome.shutdown) rfl).1

/-! ### Claim C4 — draining the in-flight batch on shutdown -/

/-- Claim C4 (counterexample).  The claim says every audio file already
handed to `transcribe_audio` is processed when RunState becomes false during
the batch.  But `transcribe_audio` re-reads the flag at the top of its
per-file loop (scribe.py line 95) and `break`s, so with two files handed in
and the flag clearing after the first file, the second file is neither
transcribed nor deleted. -/
theorem c4_batch_drain_counterexample :
    transcribe_audio (fun i => i == 0) ["a.mp3", "b.mp3"] 0 = (1, ["a.mp3"]) ∧
    "b.mp3" ∉ (transcribe_audio (fun i => i == 0) ["a.mp3", "b.mp3"] 0).2 := by
  decide

/-- Claim C4 (amended).  `transcribe_audio` checks the run flag only between
files, so no file is cancelled mid-transcription: it processes (and deletes)
exactly the prefix of the batch handed to it up to the first false flag
read, and the files after that point are skipped and left in the buffer.
The listener itself performs a directory listing only on iterations whose
flag read was true, so once RunState is false it exits without re-polling. -/
theorem c4_batch_drain_amended (flag : Nat → Bool) :
    (∀ (files : List String) (i k : Nat),
      (∀ j, j < k → flag (i + j) = true) → flag (i + k) = false →
      transcribe_audio flag files i = ((files.take k).length, files.take k)) ∧
    (∀ fuel t, flag t = false → scribe_listener_polls flag fuel t = 0) ∧
    (∀ fuel t k, k < scribe_listener_polls flag fuel t → flag (t + k) = true) := by
  refine ⟨?_, ?_, ?_⟩
  · intro files
    induction files with
    | nil => intro i k _ _; simp [transcribe_audio]
    | cons f rest ih =>
      intro i k h hk
      cases k with
      | zero =>
        simp only [Nat.add_zero] at hk
        simp [transcribe_audio, hk]
      | succ k =>
        have h0 : flag i = true := by simpa using h 0 (Nat.succ_pos k)
        have hrest : ∀ j, j < k → flag (i + 1 + j) = true := by
          intro j hj
          have := h (j + 1) (by omega)
          simpa [Nat.add_assoc, Nat.add_comm 1 j] using this
        have hk' : flag (i + 1 + k) = false := by
          simpa [Nat.add_assoc, Nat.add_comm 1 k] using hk
        simp [transcribe_audio, h0, ih (i + 1) k hrest hk']
  · intro fuel t ht
    cases fuel with
    | zero => rfl
    | succ f => simp [scribe_listener_polls, ht]
  · intro fuel
    induction fuel with
    | zero => intro t k hk; simp [scribe_listener_polls] at hk
    | succ f ih =>
      intro t k hk
      by_cases ht : flag t = true
      · cases k with
        | zero => simpa using ht
        | succ k =>
          simp only [scribe_listener_polls, ht, if_true] at hk
          have := ih (t + 1) k (by omega)
          simpa [Nat.add_assoc, Nat.add_comm 1 k] using this
      · simp only [scribe_listener_polls, Bool.not_eq_true] at ht hk
        simp [ht] at hk

/-- Claim C4 (witness): a two-file batch with the flag clearing after the
first file processes exactly one file, and a listener whose first flag read
is false performs zero directory listings. -/
theorem c4_batch_drain_witness :
    transcribe_audio (fun i => i == 0) ["a.mp3", "b.mp3"] 0 =
      ((["a.mp3", "b.mp3"].take 1).length, ["a.mp3", "b.mp3"].take 1) ∧
    scribe_listener_polls (fun _ => false) 5 0 = 0 := by
  refine ⟨(c4_batch_drain_amended (fun i => i == 0)).1 ["a.mp3", "b.mp3"] 0 1 ?_ (by decide), ?_⟩
  · intro j hj
    have hj0 : j = 0 := by omega
    subst hj0
    decide
  · exact (c4_batch_drain_amended (fun _ => false)).2.1 5 0 rfl

/-! ### Claim C8 — exactly-one-buffer copy, durable store untouched -/

/-- Total number of files across all buffer directories. -/
def totalBuffered (st : BufferState) : Nat :=
  (st.buffers.map List.length).sum

/-- The selection loop returns either its initial candidate or one of the
scanned indices. -/
theorem chooseLoop_fst_mem (counts : Nat → Nat) :
    ∀ (l : List Nat) (acc : Nat × Nat),
      (chooseLoop counts l acc).1 = acc.1 ∨ (chooseLoop counts l acc).1 ∈ l := by
  intro l
  induction l with
  | nil => intro acc; exact Or.inl rfl
  | cons i rest ih =>
    intro acc
    rcases acc with ⟨tempFolder, minFiles⟩
    simp only [chooseLoop]
    by_cases hc : minFiles > counts i
    · simp only [hc, if_true]
      rcases ih (i, counts i) with h | h
      · exact Or.inr (h ▸ List.mem_cons_self i rest)
      · exact Or.inr (List.mem_cons_of_mem i h)
    · simp only [hc, if_false]
      rcases ih (tempFolder, minFiles) with h | h
      · exact Or.inl h
      · exact Or.inr (List.mem_cons_of_mem i h)

/-- The chosen device index is always between 1 and the device count. -/
theorem copy_to_buffer_choice_bounds (counts : Nat → Nat) (n : Nat) (hn : 1 ≤ n) :
    1 ≤ copy_to_buffer_choice counts n ∧ copy_to_buffer_choice counts n ≤ n := by
  unfold copy_to_buffer_choice
  rcases chooseLoop_fst_mem counts (List.range' 2 (n - 1)) (1, counts 1) with h | h
  · rw [h]; omega
  · have := List.mem_range'_1.mp h
    omega

/-- Reading back the updated position of `List.set`. -/
theorem getD_set_self {α : Type} (l : List α) (k : Nat) (x d : α) (h : k < l.length) :
    (l.set k x).getD k d = x := by
  simp [List.getD, List.getElem?_set, h]

/-- Reading any other position of `List.set`. -/
theorem getD_set_ne {α : Type} (l : List α) (k j : Nat) (x d : α) (h : j ≠ k) :
    (l.set k x).getD j d = l.getD j d := by
  simp [List.getD, List.getElem?_set, Ne.symm h]

/-- Appending one file to one directory grows the total count by one. -/
theorem sum_length_set_append (l : List (List String)) (k : Nat) (x : String)
    (h : k < l.length) :
    ((l.set k (l.getD k [] ++ [x])).map List.length).sum = (l.map List.length).sum + 1 := by
  induction l generalizing k with
  | nil => simp at h
  | cons a rest ih =>
    cases k with
    | zero => simp [List.getD]; omega
    | succ k =>
      have hk : k < rest.length := by simpa using h
      simp only [List.getD_cons_succ, List.set_cons_succ, List.map_cons, List.sum_cons]
      have := ih k hk
      omega

/-- A `copy_to_buffer` call changes exactly the chosen directory. -/
theorem copy_to_buffer_step (st : BufferState) (fname : String)
    (hne : st.buffers ≠ []) :
    ∃ i, 1 ≤ i ∧ i ≤ st.buffers.length ∧
      (copy_to_buffer st fname).durable = st.durable ∧
      (copy_to_buffer st fname).buffers.length = st.buffers.length ∧
      (copy_to_buffer st fname).buffers.getD (i - 1) [] =
        st.buffers.getD (i - 1) [] ++ [fname] ∧
      (∀ j, j ≠ i - 1 → (copy_to_buffer st fname).buffers.getD j [] =
        st.buffers.getD j []) ∧
      totalBuffered (copy_to_buffer st fname) = totalBuffered st + 1 := by
  have hn : 1 ≤ st.buffers.length := List.length_pos.mpr hne
  obtain ⟨h1, h2⟩ :=
    copy_to_buffer_choice_bounds (bufferCount st) st.buffers.length hn
  refine ⟨copy_to_buffer_choice (bufferCount st) st.buffers.length, h1, h2, rfl, ?_, ?_, ?_, ?_⟩
  · simp [copy_to_buffer]
  · exact getD_set_self st.buffers _ _ [] (by omega)
  · intro j hj
    exact getD_set_ne st.buffers _ j _ [] hj
  · exact sum_length_set_append st.buffers _ fname (by omega)

/-- Claim C8.  Each successful allocation copies the segment into exactly
one of the N buffer directories — the chosen one gains the file, every
other directory is unchanged — and the durable recordings directory is not
modified by the allocation; over a whole `record_live_stream` run with
every segment recorded successfully, the durable store ends up holding all
segment files (the copy is not a move) while the buffers gain exactly one
file per segment. -/
theorem c8_single_buffer_copy :
    (∀ (st : BufferState) (fname : String), st.buffers ≠ [] →
      ∃ i, 1 ≤ i ∧ i ≤ st.buffers.length ∧
        (copy_to_buffer st fname).durable = st.durable ∧
        (copy_to_buffer st fname).buffers.getD (i - 1) [] =
          st.buffers.getD (i - 1) [] ++ [fname] ∧
        (∀ j, j ≠ i - 1 → (copy_to_buffer st fname).buffers.getD j [] =
          st.buffers.getD j [])) ∧
    (∀ (st : BufferState) (outcomes : List (Bool × String)),
      st.buffers ≠ [] → (∀ o ∈ outcomes, o.1 = true) →
      (record_live_stream st none outcomes).2.durable =
        st.durable ++ outcomes.map Prod.snd ∧
      totalBuffered (record_live_stream st none outcomes).2 =
        totalBuffered st + outcomes.length) := by
  constructor
  · intro st fname hne
    obtain ⟨i, h1, h2, h3, _, h5, h6, _⟩ := copy_to_buffer_step st fname hne
    exact ⟨i, h1, h2, h3, h5, h6⟩
  · have key : ∀ (outcomes : List (Bool × String)) (st : BufferState) (last : Option String),
        st.buffers ≠ [] → (∀ o ∈ outcomes, o.1 = true) →
        (record_live_stream st last outcomes).2.durable =
          st.durable ++ outcomes.map Prod.snd ∧
        totalBuffered (record_live_stream st last outcomes).2 =
          totalBuffered st + outcomes.length := by
      intro outcomes
      induction outcomes with
      | nil => intro st last _ _; simp [record_live_stream]
      | cons o rest ih =>
        intro st last hne hall
        rcases o with ⟨ok, fname⟩
        have hok : ok = true := hall (ok, fname) (List.mem_cons_self _ _)
        subst hok
        simp only [record_live_stream, if_true]
        set st1 : BufferState := { st with durable := st.durable ++ [fname] } with hst1
        obtain ⟨i, -, -, hdur, hlen, -, -, htot⟩ :=
          copy_to_buffer_step st1 fname (by simpa [hst1] using hne)
        have hne2 : (copy_to_buffer st1 fname).buffers ≠ [] := by
          have : (copy_to_buffer st1 fname).buffers.length = st.buffers.length := by
            simpa [hst1] using hlen
          intro hcon
          rw [hcon] at this
          exact hne (List.length_eq_zero.mp this.symm)
        have hall' : ∀ o ∈ rest, o.1 = true := fun o ho =>
          hall o (List.mem_cons_of_mem _ ho)
        obtain ⟨ihdur, ihtot⟩ := ih (copy_to_buffer st1 fname) (some fname) hne2 hall'
        constructor
        · rw [ihdur, hdur]
          simp [hst1]
        · rw [ihtot, htot]
          have : totalBuffered st1 = totalBuffered st := by simp [hst1, totalBuffered]
          rw [this]
          simp [List.length_cons]
          omega
    intro st outcomes hne hall
    exact key outcomes st none hne hall

/-- Claim C8 (witness): recording two segments from a state with two buffer
directories holding one file leaves both originals in the durable store and
adds exactly two files across the buffers. -/
theorem c8_single_buffer_copy_witness :
    (record_live_stream ⟨["old.mp3"], [["x.mp3"], []]⟩ none
        [(true, "s1.mp3"), (true, "s2.mp3")]).2.durable =
      ["old.mp3"] ++ ["s1.mp3", "s2.mp3"] ∧
    totalBuffered (record_live_stream ⟨["old.mp3"], [["x.mp3"], []]⟩ none
        [(true, "s1.mp3"), (true, "s2.mp3")]).2 =
      totalBuffered ⟨["old.mp3"], [["x.mp3"], []]⟩ + 2 :=
  (c8_single_buffer_copy.2 ⟨["old.mp3"], [["x.mp3"], []]⟩
    [(true, "s1.mp3"), (true, "s2.mp3")] (by decide) (by decide))

/-! ### Claim C5 — already-started adjustment -/

/-- Characterization of the embedded `datetime` comparison. -/
theorem dtLt_iff (a b : PyDateTime) :
    dtLt a b = true ↔
      a.year < b.year ∨ (a.year = b.year ∧
        (a.month < b.month ∨ (a.month = b.month ∧
          (a.day < b.day ∨ (a.day = b.day ∧ a.sod < b.sod))))) := by
  unfold dtLt
  split_ifs <;> simp <;> omega

/-- The comparison is asymmetric. -/
theorem dtLt_asymm (a b : PyDateTime) (h : dtLt a b = true) : dtLt b a = false := by
  cases hval : dtLt b a
  · rfl
  · rw [dtLt_iff] at h hval
    omega

/-- The comparison is transitive. -/
theorem dtLt_trans (a b c : PyDateTime) (hab : dtLt a b = true)
    (hbc : dtLt b c = true) : dtLt a c = true := by
  rw [dtLt_iff] at hab hbc ⊢
  omega

/-- Same-date comparison reduces to the time of day. -/
theorem dtLt_same_date (y m d a b : Nat) :
    dtLt ⟨y, m, d, a⟩ ⟨y, m, d, b⟩ = decide (a < b) := by
  simp [dtLt]

/-- Adding a positive number of seconds moves a `datetime` strictly
forwards. -/
theorem dtLt_addSeconds (d : PyDateTime) (k : Nat) (hk : 0 < k) :
    dtLt d (addSeconds d k) = true := by
  unfold addSeconds nextDay
  split_ifs <;> · rw [dtLt_iff]; simp; try omega

/-- Claim C5.  In `handle_already_started`, a window whose start has
already passed (`start < now`) and whose adjusted end lies more than
2 minutes in the future (`end > now + timedelta(minutes=2)`) gets its start
rewritten to the `"%H:%M"` rendering of `now + 2 minutes` — at current time
10:00 the window 09:00-10:30 becomes 10:02-10:30 (witness) — while a
non-wrapping window whose end has already passed is left unchanged. -/
theorem c5_already_started_adjustment (now : PyDateTime) (s e : Nat) :
    (∀ endd, end_adjusted now s e = some endd →
      dtLt ⟨now.year, now.month, now.day, s * 60⟩ now = true →
      dtLt (addSeconds now 120) endd = true →
      handle_window now s e = Except.ok ((addSeconds now 120).sod / 60, e)) ∧
    (s ≤ e →
      dtLt ⟨now.year, now.month, now.day, e * 60⟩ now = true →
      handle_window now s e = Except.ok (s, e)) := by
  constructor
  · intro endd hadj hstart hend
    unfold handle_window
    rw [hadj]
    simp [hstart, hend]
  · intro hse hpast
    have hnowrap : dtLt ⟨now.year, now.month, now.day, e * 60⟩
        ⟨now.year, now.month, now.day, s * 60⟩ = false := by
      rw [dtLt_same_date]
      simp
      omega
    have hadj : end_adjusted now s e = some ⟨now.year, now.month, now.day, e * 60⟩ := by
      unfold end_adjusted
      rw [hnowrap]
      rfl
    have hfut : dtLt (addSeconds now 120) ⟨now.year, now.month, now.day, e * 60⟩ = false := by
      apply dtLt_asymm
      exact dtLt_trans _ _ _ hpast (dtLt_addSeconds now 120 (by omega))
    unfold handle_window
    rw [hadj]
    simp [hfut]

/-- Claim C5 (witness): at current time 10:00:00 on 2024-06-10 the window
09:00-10:30 (minutes 540-630) compiles to start 10:02 (minute 602), and the
window 09:00-09:50, whose end has passed, is unchanged. -/
theorem c5_already_started_adjustment_witness :
    handle_window tenAm 540 630 = Except.ok (602, 630) ∧
    handle_window tenAm 540 590 = Except.ok (540, 590) := by
  constructor
  · exact (c5_already_started_adjustment tenAm 540 630).1 ⟨2024, 6, 10, 37800⟩
      (by decide) (by decide) (by decide)
  · exact (c5_already_started_adjustment tenAm 540 590).2 (by omega) (by decide)

/-! ### Claim C6 — slot compilation -/

/-- Membership after one `add_time` step. -/
theorem mem_add_time (acc : List Nat) (se : Nat × Nat) (x : Nat) :
    x ∈ add_time acc se ↔ x ∈ acc ∨ x = se.1 := by
  unfold add_time
  split_ifs with h
  · constructor
    · exact Or.inl
    · rintro (hx | rfl)
      · exact hx
      · exact h
  · simp [List.mem_append]

/-- One `add_time` step preserves distinctness. -/
theorem nodup_add_time (acc : List Nat) (se : Nat × Nat) (h : acc.Nodup) :
    (add_time acc se).Nodup := by
  unfold add_time
  split_ifs with hmem
  · exact h
  · simpa [List.nodup_append] using ⟨h, hmem⟩

/-- Membership in the inner fold over one station's windows. -/
theorem mem_foldl_add_time (l : List (Nat × Nat)) :
    ∀ (acc : List Nat) (x : Nat),
      x ∈ l.foldl add_time acc ↔ x ∈ acc ∨ ∃ se ∈ l, se.1 = x := by
  induction l with
  | nil => intro acc x; simp
  | cons se rest ih =>
    intro acc x
    rw [List.foldl_cons, ih, mem_add_time]
    constructor
    · rintro ((hx | rfl) | ⟨se', h1, h2⟩)
      · exact Or.inl hx
      · exact Or.inr ⟨se, List.mem_cons_self _ _, rfl⟩
      · exact Or.inr ⟨se', List.mem_cons_of_mem _ h1, h2⟩
    · rintro (hx | ⟨se', h1, h2⟩)
      · exact Or.inl (Or.inl hx)
      · rcases List.mem_cons.mp h1 with rfl | h1'
        · exact Or.inl (Or.inr h2.symm)
        · exact Or.inr ⟨se', h1', h2⟩

/-- The inner fold preserves distinctness. -/
theorem nodup_foldl_add_time (l : List (Nat × Nat)) :
    ∀ acc : List Nat, acc.Nodup → (l.foldl add_time acc).Nodup := by
  induction l with
  | nil => intro acc h; exact h
  | cons se rest ih =>
    intro acc h
    exact ih (add_time acc se) (nodup_add_time acc se h)

/-- Membership in the outer fold over all stations. -/
theorem mem_foldl_collect_station (stations : List SchedStation) :
    ∀ (acc : List Nat) (x : Nat),
      x ∈ stations.foldl collect_station acc ↔
        x ∈ acc ∨ ∃ st ∈ stations, ∃ se ∈ st.time, se.1 = x := by
  induction stations with
  | nil => intro acc x; simp
  | cons st rest ih =>
    intro acc x
    rw [List.foldl_cons, ih]
    unfold collect_station
    rw [mem_foldl_add_time]
    constructor
    · rintro ((hx | ⟨se, h1, h2⟩) | ⟨st', h1, h2⟩)
      · exact Or.inl hx
      · exact Or.inr ⟨st, List.mem_cons_self _ _, se, h1, h2⟩
      · exact Or.inr ⟨st', List.mem_cons_of_mem _ h1, h2⟩
    · rintro (hx | ⟨st', h1, ⟨se, h2, h3⟩⟩)
      · exact Or.inl (Or.inl hx)
      · rcases List.mem_cons.mp h1 with rfl | h1'
        · exact Or.inl (Or.inr ⟨se, h2, h3⟩)
        · exact Or.inr ⟨st', h1', se, h2, h3⟩

/-- Distinct start times are collected without duplicates. -/
theorem nodup_collect_times (stations : List SchedStation) :
    (collect_times stations).Nodup := by
  unfold collect_times
  have key : ∀ (l : List SchedStation) (acc : List Nat), acc.Nodup →
      (l.foldl collect_station acc).Nodup := by
    intro l
    induction l with
    | nil => intro acc h; exact h
    | cons st rest ih =>
      intro acc h
      exact ih _ (nodup_foldl_add_time st.time acc h)
  exact key stations [] List.nodup_nil

/-- A time occurs in the collected list iff some window starts there. -/
theorem mem_collect_times (stations : List SchedStation) (x : Nat) :
    x ∈ collect_times stations ↔ ∃ st ∈ stations, ∃ se ∈ st.time, se.1 = x := by
  unfold collect_times
  rw [mem_foldl_collect_station]
  simp

/-- The compiled slot times are exactly the sorted distinct start times. -/
theorem build_slots_times (stations : List SchedStation) :
    (build_slots stations).map TimeSlot.time = unique_times stations := by
  simp [build_slots, List.map_map, Function.comp_def]

/-- Membership in one station's contribution to a slot. -/
theorem mem_station_entries (t : Nat) (st : SchedStation) (ent : RadioEntry) :
    ent ∈ station_entries t st ↔
      ∃ se ∈ st.time, se.1 = t ∧
        ent = ⟨st.url, st.state ++ "_" ++ st.radio_name, get_duration se.1 se.2⟩ := by
  unfold station_entries
  rw [List.mem_filterMap]
  constructor
  · rintro ⟨se, h1, h2⟩
    by_cases ht : se.1 = t
    · rw [if_pos ht] at h2
      exact ⟨se, h1, ht, (Option.some_inj.mp h2).symm⟩
    · rw [if_neg ht] at h2
      exact absurd h2 (Option.noConfusion)
  · rintro ⟨se, h1, h2, h3⟩
    exact ⟨se, h1, by rw [if_pos h2, h3]⟩

/-- Claim C6.  Compiling a schedule yields exactly one TimeSlot per distinct
window start time (the slot-time list is strictly sorted, hence
duplicate-free), a slot exists for a time iff some window starts there, each
slot contains exactly the entries of the stations whose windows begin at its
time with duration `get_duration start end` (end before start adds 24 h);
in particular the windows 00:30-01:00 and 00:30-01:30 compile to a single
slot at 00:30 with durations 1800 s and 3600 s, and the window 23:30-00:15
compiles to duration 2700 s. -/
theorem c6_slot_compilation (stations : List SchedStation) :
    ((build_slots stations).map TimeSlot.time).Sorted (· < ·) ∧
    (∀ t : Nat, t ∈ (build_slots stations).map TimeSlot.time ↔
      ∃ st ∈ stations, ∃ se ∈ st.time, se.1 = t) ∧
    (∀ slot ∈ build_slots stations, ∀ ent : RadioEntry,
      ent ∈ slot.radio_list ↔
        ∃ st ∈ stations, ∃ se ∈ st.time, se.1 = slot.time ∧
          ent = ⟨st.url, st.state ++ "_" ++ st.radio_name, get_duration se.1 se.2⟩) ∧
    process_schedule_file earlyNow exampleSchedule =
      Except.ok [⟨30, [⟨"u1", "AK_KENI", 1800⟩, ⟨"u2", "AZ_KFNX", 3600⟩]⟩,
                 ⟨1410, [⟨"u3", "TX_KAOX", 2700⟩]⟩] := by
  refine ⟨?_, ?_, ?_, by decide⟩
  · rw [build_slots_times]
    have hsorted : (unique_times stations).Sorted (· ≤ ·) :=
      List.sorted_insertionSort (· ≤ ·) (collect_times stations)
    have hnodup : (unique_times stations).Nodup :=
      (List.perm_insertionSort (· ≤ ·) (collect_times stations)).nodup_iff.mpr
        (nodup_collect_times stations)
    exact hsorted.lt_of_le hnodup
  · intro t
    rw [build_slots_times]
    unfold unique_times
    rw [List.mem_insertionSort, mem_collect_times]
  · intro slot hslot ent
    unfold build_slots at hslot
    rcases List.mem_map.mp hslot with ⟨t, _, rfl⟩
    simp only [List.mem_flatMap]
    constructor
    · rintro ⟨st, h1, h2⟩
      rcases (mem_station_entries t st ent).mp h2 with ⟨se, h3, h4, h5⟩
      exact ⟨st, h1, se, h3, h4, h5⟩
    · rintro ⟨st, h1, se, h2, h3, h4⟩
      exact ⟨st, h1, (mem_station_entries t st ent).mpr ⟨se, h2, h3, h4⟩⟩

/-- Claim C6 (witness): on the example schedule the compiled slot times are
strictly ascending and a slot exists at 00:30. -/
theorem c6_slot_compilation_witness :
    ((build_slots exampleSchedule).map TimeSlot.time).Sorted (· < ·) ∧
    (30 ∈ (build_slots exampleSchedule).map TimeSlot.time) := by
  refine ⟨(c6_slot_compilation exampleSchedule).1, ?_⟩
  refine ((c6_slot_compilation exampleSchedule).2.1 30).mpr ?_
  exact ⟨stationKENI, by decide, (30, 60), by decide, rfl⟩

end WavePulse
